import Mathlib

set_option maxRecDepth 8000

/-!
Verification development for the Dester backend's homepage pipeline.

The source of truth is `src/app/api/routes/home.py` (the `/home` route handler
`home()`) together with the application-level exception handlers registered in
`src/main.py`.  The document store (MongoDB) and the web framework's exception
dispatch are external collaborators; the parts of their behaviour the route
relies on are modelled here following their documented interface.
-/

/-- A document of the store: an association list from field names to numeric
values.  The pipeline only ever reads the numeric ranking fields
(`popularity`, `rating`, `modified_time`, `seasons.episodes.modified_time`),
so field values are modelled as integers. -/
abbrev Doc := List (String × Int)

/-- The value of field `k` of document `d` (first binding wins; `0` when the
field is absent). -/
def getField (d : Doc) (k : String) : Int :=
  match d.find? (fun p => p.1 == k) with
  | some p => p.2
  | none => 0

/-- Mongo `$project` with exclusions: drop every field whose name is listed in
`unwanted`.  This is the projection stage built at home.py lines 64-66 from the
`unwanted_keys` dict of lines 42-53. -/
def projectDoc (unwanted : List String) (d : Doc) : Doc :=
  d.filter (fun p => !(unwanted.contains p.1))

/-- Insert a document into a list that is sorted descending on field `k`,
keeping the insertion stable (an equal key goes in front of existing equal
keys, as the inserted element comes earlier in the original order). -/
def insertDescBy (k : String) (d : Doc) : List Doc → List Doc
  | [] => [d]
  | e :: es =>
    if getField e k ≤ getField d k then d :: e :: es
    else e :: insertDescBy k d es

/-- Stable sort of documents, descending on field `k`.  This models both
Mongo's `$sort {k: -1}` stage and Python's
`sorted(xs, key=lambda r: r[k], reverse=True)` (home.py lines 114-131). -/
def sortDescBy (k : String) : List Doc → List Doc
  | [] => []
  | d :: ds => insertDescBy k d (sortDescBy k ds)

/-- home.py line 16. -/
def data_cap_limit : Nat := 15

/-- The field names excluded by every `$project` stage, home.py lines 42-53. -/
def unwantedKeys : List String :=
  ["_id", "cast", "seasons", "file_name", "subtitles", "external_ids",
   "collection", "homepage", "last_episode_to_air", "next_episode_to_air"]

/-- One aggregation pipeline `[{$sort: {key: -1}}, {$limit: lim},
{$project: unwanted}]` as built at home.py lines 57-67 (and again at lines
72-82, 87-97 and 102-112 with the other sort keys), evaluated with Mongo's
documented stage semantics: sort first, then truncate, then project. -/
def aggregatePipeline (key : String) (lim : Nat) (unwanted : List String)
    (docs : List Doc) : List Doc :=
  ((sortDescBy key docs).take lim).map (projectDoc unwanted)

/-- `sorted_popularity_data` for one category (home.py lines 57-67). -/
def popSlice (docs : List Doc) : List Doc :=
  aggregatePipeline "popularity" data_cap_limit unwantedKeys docs

/-- `sorted_top_rated_data` for one category (home.py lines 72-82). -/
def ratingSlice (docs : List Doc) : List Doc :=
  aggregatePipeline "rating" data_cap_limit unwantedKeys docs

/-- `sorted_newly_added_data` for a movies category (home.py lines 87-97). -/
def movieRecencySlice (docs : List Doc) : List Doc :=
  aggregatePipeline "modified_time" data_cap_limit unwantedKeys docs

/-- `sorted_newly_added_data` for a non-movies category (home.py lines
102-112): sorted on the nested `seasons.episodes.modified_time` field. -/
def episodeRecencySlice (docs : List Doc) : List Doc :=
  aggregatePipeline "seasons.episodes.modified_time" data_cap_limit unwantedKeys docs

/-- A value held by a field of a category record: a string (`id`, `type`,
display metadata), a number, or an attached list of documents (the
`"metadata"` slice `home()` writes into the record at home.py line 68). -/
inductive CVal
  | s (v : String)
  | n (v : Int)
  | docs (v : List Doc)
deriving DecidableEq

/-- A category record, as stored in `mongo.categories`: a Python dict,
modelled as an association list in insertion order. -/
abbrev Category := List (String × CVal)

/-- Look a key up in a category record. -/
def catLookup (c : Category) (k : String) : Option CVal :=
  (c.find? (fun p => p.1 == k)).map Prod.snd

/-- Read a string-valued field of a category record (empty when absent or not
a string). -/
def catStr (c : Category) (k : String) : String :=
  match catLookup c k with
  | some (CVal.s v) => v
  | _ => ""

/-- `category["id"]` -/
def catId (c : Category) : String := catStr c "id"

/-- `category["type"]` -/
def catType (c : Category) : String := catStr c "type"

/-- Python dict assignment `c[k] = v`: replace the value in place when the key
is present, otherwise append the new binding (dict insertion order). -/
def dictSet (c : Category) (k : String) (v : CVal) : Category :=
  if c.any (fun p => p.1 == k) then
    c.map (fun p => if p.1 == k then (k, v) else p)
  else c ++ [(k, v)]

/-- The eight accumulator lists built by `home()`'s loop over
`mongo.categories` (home.py lines 34-41). -/
structure HomeAcc where
  cats : List Category
  car : List Doc
  mpm : List Doc
  mps : List Doc
  trm : List Doc
  trs : List Doc
  nam : List Doc
  nae : List Doc
deriving DecidableEq

def emptyAcc : HomeAcc := ⟨[], [], [], [], [], [], [], []⟩

/-- The body of `home()`'s per-category loop (home.py lines 54-113) as a pure
step: given a category, its collection's documents, and the accumulators built
from the remaining categories, produce the extended accumulators.  The
category record itself gains a `"metadata"` field holding its popularity slice
(line 68); the carousel receives the slice's first three entries (line 70);
the remaining slices are routed by `category["type"] == "movies"`
(lines 84-113). -/
def stepCategory (category : Category) (docs : List Doc) (acc : HomeAcc) : HomeAcc :=
  let pop := popSlice docs
  let rated := ratingSlice docs
  let catOut := dictSet category "metadata" (CVal.docs pop)
  if catType category == "movies" then
    ⟨catOut :: acc.cats, pop.take 3 ++ acc.car, pop ++ acc.mpm, acc.mps,
      rated ++ acc.trm, acc.trs, movieRecencySlice docs ++ acc.nam, acc.nae⟩
  else
    ⟨catOut :: acc.cats, pop.take 3 ++ acc.car, acc.mpm, pop ++ acc.mps,
      acc.trm, rated ++ acc.trs, acc.nam, episodeRecencySlice docs ++ acc.nae⟩

/-- `home()`'s loop over `mongo.categories` when every store query succeeds:
`store` maps a category id to the raw documents of its backing collection. -/
def homeLoopP (store : String → List Doc) : List Category → HomeAcc
  | [] => emptyAcc
  | c :: rest => stepCategory c (store (catId c)) (homeLoopP store rest)

/-- The `data` object of the response (home.py lines 146-155). -/
structure Snapshot where
  categories : List Category
  carousel : List Doc
  most_popular_movies : List Doc
  most_popular_series : List Doc
  top_rated_movies : List Doc
  top_rated_series : List Doc
  newly_added_movies : List Doc
  newly_added_episodes : List Doc
deriving DecidableEq

/-- The final global re-sorts (home.py lines 114-131) followed by response
assembly (lines 146-155).  Note that `newly_added_episodes_data` has no
`sorted(...)` call in the source: it is placed in the response exactly as
accumulated. -/
def finishSnapshot (acc : HomeAcc) : Snapshot :=
  ⟨acc.cats,
   sortDescBy "popularity" acc.car,
   sortDescBy "popularity" acc.mpm,
   sortDescBy "popularity" acc.mps,
   sortDescBy "rating" acc.trm,
   sortDescBy "rating" acc.trs,
   sortDescBy "modified_time" acc.nam,
   acc.nae⟩

/-- The homepage data generation (home.py lines 29-131) for a run in which
every store query succeeds. -/
def homePure (cats : List Category) (store : String → List Doc) : Snapshot :=
  finishSnapshot (homeLoopP store cats)

/-- Modelled from the spec: the Document Store Client (§6) is not part of
src/ (only its caller is); a query for a category's collection either returns
its documents or fails (`StoreUnavailable` / `CollectionNotFound`), the error
carried as a message string. -/
structure MongoState where
  categories : List Category
  metadata : String → Except String (List Doc)

/-- `home()`'s loop against a fallible store: the first failing query aborts
the run with that error, exactly as an exception raised inside the Python
loop would. -/
def homeLoopE (store : String → Except String (List Doc)) :
    List Category → Except String HomeAcc
  | [] => Except.ok emptyAcc
  | c :: rest =>
    match store (catId c) with
    | Except.error e => Except.error e
    | Except.ok docs =>
      match homeLoopE store rest with
      | Except.error e => Except.error e
      | Except.ok acc => Except.ok (stepCategory c docs acc)

/-- The JSON body shapes returned to the client: `home()`'s success body
(home.py lines 143-157, minus the wall-clock `time_taken`) and the 500
handler's body from src/main.py lines 91-98. -/
structure Resp where
  ok : Bool
  message : String
  data : Option Snapshot
  error_msg : Option String
deriving DecidableEq

/-- The `/home` route handler `home()` (home.py lines 26-157), wall-clock
timing omitted: it either returns the success-shaped response or raises
(returns `Except.error`) when a store query raises. -/
def home (st : MongoState) : Except String Resp :=
  match homeLoopE st.metadata st.categories with
  | Except.error e => Except.error e
  | Except.ok acc =>
    Except.ok ⟨true, "success", some (finishSnapshot acc), none⟩

/-- The application boundary around the route: src/main.py lines 84-100
register a handler for internal server errors returning
`{"ok": False, "message": "Internal server error", "error_msg": str(exc)}`.
Modelled from the spec: the framework's dispatch of an exception escaping the
route handler to that registered handler (the framework is outside src/). -/
def appHome (st : MongoState) : Resp :=
  match home st with
  | Except.ok r => r
  | Except.error e => ⟨false, "Internal server error", none, some e⟩

/-- A list of documents is sorted descending (non-increasing) on field `k`. -/
def SortedDescBy (k : String) (l : List Doc) : Prop :=
  l.Pairwise (fun a b => getField b k ≤ getField a k)

/-- No field of the document bears an excluded name. -/
def CleanDoc (d : Doc) : Prop :=
  ∀ p ∈ d, unwantedKeys.contains p.1 = false

/-- Every document of the list is clean of excluded field names. -/
def AllClean (l : List Doc) : Prop := ∀ d ∈ l, CleanDoc d

/-- The documents attached to a category record under its `"metadata"` key. -/
def catMetadata (c : Category) : List Doc :=
  match catLookup c "metadata" with
  | some (CVal.docs v) => v
  | _ => []

theorem insertDescBy_perm (k : String) (d : Doc) (l : List Doc) :
    (insertDescBy k d l).Perm (d :: l) := by
  induction l with
  | nil => exact List.Perm.refl _
  | cons e es ih =>
    unfold insertDescBy
    by_cases h : getField e k ≤ getField d k
    · simp [h]
    · simp only [h, if_false]
      exact (List.Perm.cons e ih).trans (List.Perm.swap d e es)

theorem sortDescBy_perm (k : String) (l : List Doc) :
    (sortDescBy k l).Perm l := by
  induction l with
  | nil => exact List.Perm.refl _
  | cons d ds ih =>
    exact (insertDescBy_perm k d _).trans (List.Perm.cons d ih)

theorem mem_sortDescBy {k : String} {l : List Doc} {x : Doc} :
    x ∈ sortDescBy k l ↔ x ∈ l :=
  (sortDescBy_perm k l).mem_iff

theorem sorted_insertDescBy (k : String) (d : Doc) (l : List Doc)
    (h : SortedDescBy k l) : SortedDescBy k (insertDescBy k d l) := by
  induction l with
  | nil =>
    simp [insertDescBy, SortedDescBy]
  | cons e es ih =>
    rw [SortedDescBy, List.pairwise_cons] at h
    unfold insertDescBy
    by_cases hle : getField e k ≤ getField d k
    · simp only [hle, if_true]
      rw [SortedDescBy, List.pairwise_cons]
      refine ⟨?_, ?_⟩
      · intro b hb
        rcases List.mem_cons.mp hb with hb | hb
        · exact hb ▸ hle
        · exact le_trans (h.1 b hb) hle
      · rw [SortedDescBy] at *
        exact List.pairwise_cons.mpr h
    · simp only [hle, if_false]
      rw [SortedDescBy, List.pairwise_cons]
      refine ⟨?_, ih h.2⟩
      intro b hb
      rcases List.mem_cons.mp ((insertDescBy_perm k d es).mem_iff.mp hb) with hb | hb
      · exact hb ▸ le_of_lt (lt_of_not_le hle)
      · exact h.1 b hb

theorem sortDescBy_sorted (k : String) (l : List Doc) :
    SortedDescBy k (sortDescBy k l) := by
  induction l with
  | nil => simp [sortDescBy, SortedDescBy]
  | cons d ds ih => exact sorted_insertDescBy k d _ ih

theorem find?_filter_of_imp {α : Type} (l : List α) (p q : α → Bool)
    (hpq : ∀ x, p x = true → q x = true) :
    (l.filter q).find? p = l.find? p := by
  induction l with
  | nil => rfl
  | cons a as ih =>
    by_cases hq : q a = true
    · simp only [List.filter_cons, hq, if_true, List.find?_cons]
      cases hpa : p a <;> simp [hpa, ih]
    · have hpa : p a = false := by
        cases hpa : p a with
        | true => exact absurd (hpq a hpa) hq
        | false => rfl
      simp [List.filter_cons, hq, List.find?_cons, hpa, ih]

theorem getField_projectDoc (unwanted : List String) (d : Doc) (k : String)
    (hk : unwanted.contains k = false) :
    getField (projectDoc unwanted d) k = getField d k := by
  unfold getField projectDoc
  rw [find?_filter_of_imp]
  intro p hp
  have h1 : p.1 = k := by simpa using hp
  rw [h1, hk]
  rfl

theorem homeLoopP_cats (store : String → List Doc) (cats : List Category) :
    (homeLoopP store cats).cats
      = cats.map (fun c => dictSet c "metadata" (CVal.docs (popSlice (store (catId c))))) := by
  induction cats with
  | nil => rfl
  | cons c rest ih =>
    cases h : catType c == "movies" <;>
      simp [homeLoopP, stepCategory, h, ih]

theorem homeLoopP_car (store : String → List Doc) (cats : List Category) :
    (homeLoopP store cats).car
      = (cats.map (fun c => (popSlice (store (catId c))).take 3)).flatten := by
  induction cats with
  | nil => rfl
  | cons c rest ih =>
    cases h : catType c == "movies" <;>
      simp [homeLoopP, stepCategory, h, ih]

theorem homeLoopP_mpm (store : String → List Doc) (cats : List Category) :
    (homeLoopP store cats).mpm
      = ((cats.filter (fun c => catType c == "movies")).map
          (fun c => popSlice (store (catId c)))).flatten := by
  induction cats with
  | nil => rfl
  | cons c rest ih =>
    cases h : catType c == "movies" <;>
      simp [homeLoopP, stepCategory, List.filter_cons, h, ih]

theorem homeLoopP_mps (store : String → List Doc) (cats : List Category) :
    (homeLoopP store cats).mps
      = ((cats.filter (fun c => !(catType c == "movies"))).map
          (fun c => popSlice (store (catId c)))).flatten := by
  induction cats with
  | nil => rfl
  | cons c rest ih =>
    cases h : catType c == "movies" <;>
      simp [homeLoopP, stepCategory, List.filter_cons, h, ih]

theorem homeLoopP_trm (store : String → List Doc) (cats : List Category) :
    (homeLoopP store cats).trm
      = ((cats.filter (fun c => catType c == "movies")).map
          (fun c => ratingSlice (store (catId c)))).flatten := by
  induction cats with
  | nil => rfl
  | cons c rest ih =>
    cases h : catType c == "movies" <;>
      simp [homeLoopP, stepCategory, List.filter_cons, h, ih]

theorem homeLoopP_trs (store : String → List Doc) (cats : List Category) :
    (homeLoopP store cats).trs
      = ((cats.filter (fun c => !(catType c == "movies"))).map
          (fun c => ratingSlice (store (catId c)))).flatten := by
  induction cats with
  | nil => rfl
  | cons c rest ih =>
    cases h : catType c == "movies" <;>
      simp [homeLoopP, stepCategory, List.filter_cons, h, ih]

theorem homeLoopP_nam (store : String → List Doc) (cats : List Category) :
    (homeLoopP store cats).nam
      = ((cats.filter (fun c => catType c == "movies")).map
          (fun c => movieRecencySlice (store (catId c)))).flatten := by
  induction cats with
  | nil => rfl
  | cons c rest ih =>
    cases h : catType c == "movies" <;>
      simp [homeLoopP, stepCategory, List.filter_cons, h, ih]

theorem homeLoopP_nae (store : String → List Doc) (cats : List Category) :
    (homeLoopP store cats).nae
      = ((cats.filter (fun c => !(catType c == "movies"))).map
          (fun c => episodeRecencySlice (store (catId c)))).flatten := by
  induction cats with
  | nil => rfl
  | cons c rest ih =>
    cases h : catType c == "movies" <;>
      simp [homeLoopP, stepCategory, List.filter_cons, h, ih]

theorem homeLoopE_total (store : String → List Doc) (cats : List Category) :
    homeLoopE (fun i => Except.ok (store i)) cats
      = Except.ok (homeLoopP store cats) := by
  induction cats with
  | nil => rfl
  | cons c rest ih => simp [homeLoopE, homeLoopP, ih]

theorem home_total (store : String → List Doc) (cats : List Category) :
    home ⟨cats, fun i => Except.ok (store i)⟩
      = Except.ok ⟨true, "success", some (homePure cats store), none⟩ := by
  simp [home, homeLoopE_total, homePure]

/-- A concrete movies category (used to exercise the theorems on data). -/
def exampleCatA : Category := [("id", CVal.s "a"), ("type", CVal.s "movies")]

/-- A second concrete movies category. -/
def exampleCatB : Category := [("id", CVal.s "b"), ("type", CVal.s "movies")]

/-- A concrete store: category `a` holds documents with popularity
{10, 9, 8}, category `b` holds {7, 6, 5} (unsorted on purpose). -/
def exampleStore : String → List Doc := fun i =>
  if i == "a" then
    [[("popularity", (8 : Int))], [("popularity", (10 : Int))], [("popularity", (9 : Int))]]
  else if i == "b" then
    [[("popularity", (6 : Int))], [("popularity", (5 : Int))], [("popularity", (7 : Int))]]
  else []

/-- C1: for every run of the generation, the carousel equals the concatenation
of the first three elements of each category's popularity slice, re-sorted
globally by popularity descending; on the concrete two-category example with
popularity sets {10,9,8} and {7,6,5} (cap 15 ≥ 3) the carousel's popularity
column is [10, 9, 8, 7, 6, 5]. -/
theorem carousel_top3_global_sort :
    (∀ (cats : List Category) (store : String → List Doc),
      (homePure cats store).carousel
        = sortDescBy "popularity"
            ((cats.map (fun c => (popSlice (store (catId c))).take 3)).flatten)) ∧
    (homePure [exampleCatA, exampleCatB] exampleStore).carousel.map
        (fun d => getField d "popularity") = [10, 9, 8, 7, 6, 5] := by
  constructor
  · intro cats store
    simp [homePure, finishSnapshot, homeLoopP_car]
  · decide

/-- C3: every popularity slice has length at most `data_cap_limit`, is sorted
by popularity non-increasing, and equals the `data_cap_limit`-truncation of
the whole projected sorted collection — the limit truncates the sorted order,
it is not a pre-sort sample. -/
theorem popSlice_cap_and_order (docs : List Doc) :
    (popSlice docs).length ≤ data_cap_limit ∧
    SortedDescBy "popularity" (popSlice docs) ∧
    popSlice docs
      = ((sortDescBy "popularity" docs).map (projectDoc unwantedKeys)).take data_cap_limit := by
  refine ⟨?_, ?_, ?_⟩
  · simp [popSlice, aggregatePipeline, List.length_take]
  · have hs : List.Pairwise (fun a b => getField b "popularity" ≤ getField a "popularity")
        ((sortDescBy "popularity" docs).take data_cap_limit) :=
      List.Pairwise.sublist (List.take_sublist _ _) (sortDescBy_sorted _ _)
    have hproj : unwantedKeys.contains "popularity" = false := by decide
    unfold popSlice aggregatePipeline SortedDescBy
    rw [List.pairwise_map]
    refine hs.imp ?_
    intro a b h
    rw [getField_projectDoc _ _ _ hproj, getField_projectDoc _ _ _ hproj]
    exact h
  · simp [popSlice, aggregatePipeline, List.map_take]

/-- C8: when the set of known categories is empty, the run succeeds with
ok=true and a snapshot in which every section is an empty list. -/
theorem empty_categories_all_sections_empty (store : String → Except String (List Doc)) :
    home ⟨[], store⟩
      = Except.ok ⟨true, "success", some ⟨[], [], [], [], [], [], [], []⟩, none⟩ := rfl

/-- A concrete series category. -/
def seriesCat1 : Category := [("id", CVal.s "s1"), ("type", CVal.s "series")]

/-- A second concrete series category. -/
def seriesCat2 : Category := [("id", CVal.s "s2"), ("type", CVal.s "series")]

/-- A concrete store for the series categories: `s1` holds one document with
modified time 1, `s2` one with modified time 2 (the nested episode timestamp
agrees with the top-level one). -/
def seriesStore : String → List Doc := fun i =>
  if i == "s1" then
    [[("modified_time", (1 : Int)), ("seasons.episodes.modified_time", (1 : Int))]]
  else if i == "s2" then
    [[("modified_time", (2 : Int)), ("seasons.episodes.modified_time", (2 : Int))]]
  else []

/-- C2 counterexample: with two series categories whose single documents carry
modified times 1 and 2 (in that category order), the produced
newly_added_episodes list is [time 1, time 2] — not non-increasing in modified
time, so it was not globally re-sorted by modified time descending. -/
theorem newly_added_episodes_not_resorted :
    (homePure [seriesCat1, seriesCat2] seriesStore).newly_added_episodes.map
        (fun d => getField d "modified_time") = [1, 2] ∧
    ¬ SortedDescBy "modified_time"
        ((homePure [seriesCat1, seriesCat2] seriesStore).newly_added_episodes) := by
  constructor
  · decide
  · unfold SortedDescBy
    decide

/-- C2 (amended): after concatenating the per-category slices,
newly_added_movies is globally re-sorted by modified time descending, but
newly_added_episodes is placed in the snapshot as the plain concatenation of
the per-category episode-recency slices, with no global re-sort. -/
theorem newly_added_sorting (cats : List Category) (store : String → List Doc) :
    (homePure cats store).newly_added_movies
      = sortDescBy "modified_time"
          (((cats.filter (fun c => catType c == "movies")).map
              (fun c => movieRecencySlice (store (catId c)))).flatten) ∧
    (homePure cats store).newly_added_episodes
      = ((cats.filter (fun c => !(catType c == "movies"))).map
          (fun c => episodeRecencySlice (store (catId c)))).flatten := by
  constructor
  · simp [homePure, finishSnapshot, homeLoopP_nam]
  · simp [homePure, finishSnapshot, homeLoopP_nae]

/-- C10: every category whose type field is not exactly "movies" — whatever
else it is — feeds the series sections: most_popular_series, top_rated_series
and newly_added_episodes are built from exactly the non-"movies" categories'
slices, and the episode recency slice is the pipeline sorted on the nested
seasons.episodes.modified_time field. -/
theorem non_movies_routed_to_series (cats : List Category) (store : String → List Doc) :
    (homePure cats store).most_popular_series
      = sortDescBy "popularity"
          (((cats.filter (fun c => !(catType c == "movies"))).map
              (fun c => popSlice (store (catId c)))).flatten) ∧
    (homePure cats store).top_rated_series
      = sortDescBy "rating"
          (((cats.filter (fun c => !(catType c == "movies"))).map
              (fun c => ratingSlice (store (catId c)))).flatten) ∧
    (homePure cats store).newly_added_episodes
      = ((cats.filter (fun c => !(catType c == "movies"))).map
          (fun c => aggregatePipeline "seasons.episodes.modified_time" data_cap_limit
              unwantedKeys (store (catId c)))).flatten := by
  refine ⟨?_, ?_, ?_⟩ <;>
    simp [homePure, finishSnapshot, homeLoopP_mps, homeLoopP_trs, homeLoopP_nae,
      episodeRecencySlice]

/-- C4: when every known category's kind is one of "movies" / "series", every
record of most_popular_movies comes from the popularity slice of a "movies"
category and every record of most_popular_series comes from the popularity
slice of a "series" category. -/
theorem most_popular_partition (cats : List Category) (store : String → List Doc)
    (hk : ∀ c ∈ cats, catType c = "movies" ∨ catType c = "series") :
    (∀ d ∈ (homePure cats store).most_popular_movies,
      ∃ c ∈ cats, catType c = "movies" ∧ d ∈ popSlice (store (catId c))) ∧
    (∀ d ∈ (homePure cats store).most_popular_series,
      ∃ c ∈ cats, catType c = "series" ∧ d ∈ popSlice (store (catId c))) := by
  have hmpm : (homePure cats store).most_popular_movies
      = sortDescBy "popularity"
          (((cats.filter (fun c => catType c == "movies")).map
              (fun c => popSlice (store (catId c)))).flatten) := by
    simp [homePure, finishSnapshot, homeLoopP_mpm]
  have hmps : (homePure cats store).most_popular_series
      = sortDescBy "popularity"
          (((cats.filter (fun c => !(catType c == "movies"))).map
              (fun c => popSlice (store (catId c)))).flatten) := by
    simp [homePure, finishSnapshot, homeLoopP_mps]
  constructor
  · intro d hd
    rw [hmpm] at hd
    rcases List.mem_flatten.mp (mem_sortDescBy.mp hd) with ⟨l, hl, hdl⟩
    rcases List.mem_map.mp hl with ⟨c, hc, rfl⟩
    have h2 := List.mem_filter.mp hc
    exact ⟨c, h2.1, by simpa using h2.2, hdl⟩
  · intro d hd
    rw [hmps] at hd
    rcases List.mem_flatten.mp (mem_sortDescBy.mp hd) with ⟨l, hl, hdl⟩
    rcases List.mem_map.mp hl with ⟨c, hc, rfl⟩
    have h2 := List.mem_filter.mp hc
    have hne : ¬ catType c = "movies" := by simpa using h2.2
    rcases hk c h2.1 with hm | hs
    · exact absurd hm hne
    · exact ⟨c, h2.1, hs, hdl⟩

/-- Witness for C4 at a concrete two-category state (one movies category, one
series category). -/
theorem most_popular_partition_witness :
    (∀ c ∈ [exampleCatA, seriesCat1], catType c = "movies" ∨ catType c = "series") ∧
    ((∀ d ∈ (homePure [exampleCatA, seriesCat1] exampleStore).most_popular_movies,
        ∃ c ∈ [exampleCatA, seriesCat1],
          catType c = "movies" ∧ d ∈ popSlice (exampleStore (catId c))) ∧
     (∀ d ∈ (homePure [exampleCatA, seriesCat1] exampleStore).most_popular_series,
        ∃ c ∈ [exampleCatA, seriesCat1],
          catType c = "series" ∧ d ∈ popSlice (exampleStore (catId c)))) :=
  ⟨by decide, most_popular_partition [exampleCatA, seriesCat1] exampleStore (by decide)⟩

theorem find?_append_or {α : Type} (l₁ l₂ : List α) (p : α → Bool) :
    (l₁ ++ l₂).find? p = ((l₁.find? p).or (l₂.find? p)) := by
  induction l₁ with
  | nil => rfl
  | cons a as ih => cases h : p a <;> simp [List.find?_cons, h, ih]

theorem comp_replace_keytest (k k' : String) (v : CVal) :
    ((fun p : String × CVal => p.1 == k') ∘ (fun p => if p.1 == k then (k, v) else p))
      = fun p : String × CVal => p.1 == k' := by
  funext x
  by_cases hx : x.1 = k <;> simp [Function.comp, hx]

theorem catLookup_map_replace_same (c : Category) (k : String) (v : CVal)
    (h : c.any (fun p => p.1 == k) = true) :
    catLookup (c.map (fun p => if p.1 == k then (k, v) else p)) k = some v := by
  unfold catLookup
  rw [List.find?_map, comp_replace_keytest]
  have hsome : (c.find? (fun p => p.1 == k)).isSome = true :=
    List.find?_isSome.mpr (List.any_eq_true.mp h)
  rcases Option.isSome_iff_exists.mp hsome with ⟨x, hx⟩
  have hpx := @List.find?_some _ (fun p : String × CVal => p.1 == k) x c hx
  have hxk : x.1 = k := beq_iff_eq.mp hpx
  simp [hx, hxk]

theorem catLookup_map_replace_other (c : Category) (k k' : String) (v : CVal)
    (hne : k' ≠ k) :
    catLookup (c.map (fun p => if p.1 == k then (k, v) else p)) k'
      = catLookup c k' := by
  unfold catLookup
  rw [List.find?_map, comp_replace_keytest]
  cases hf : c.find? (fun p => p.1 == k') with
  | none => simp
  | some x =>
    have hpx := @List.find?_some _ (fun p : String × CVal => p.1 == k') x c hf
    have hx : x.1 = k' := beq_iff_eq.mp hpx
    have hxk : ¬ x.1 = k := fun hh => hne (hx ▸ hh)
    simp [hxk]

theorem catLookup_dictSet_same (c : Category) (k : String) (v : CVal) :
    catLookup (dictSet c k v) k = some v := by
  unfold dictSet
  by_cases h : c.any (fun p => p.1 == k) = true
  · rw [if_pos h]
    exact catLookup_map_replace_same c k v h
  · have hnone : c.find? (fun p => p.1 == k) = none := by
      rw [List.find?_eq_none]
      intro x hx hpx
      exact h (List.any_eq_true.mpr ⟨x, hx, hpx⟩)
    rw [if_neg h]
    unfold catLookup
    rw [find?_append_or, hnone]
    simp [List.find?_cons]

theorem catLookup_dictSet_other (c : Category) (k : String) (v : CVal)
    (k' : String) (hne : k' ≠ k) :
    catLookup (dictSet c k v) k' = catLookup c k' := by
  unfold dictSet
  by_cases h : c.any (fun p => p.1 == k) = true
  · rw [if_pos h]
    exact catLookup_map_replace_other c k k' v hne
  · have hkk : (k == k') = false := beq_eq_false_iff_ne.mpr (fun hh => hne hh.symm)
    rw [if_neg h]
    unfold catLookup
    rw [find?_append_or]
    simp [List.find?_cons, hkk]

theorem catMetadata_dictSet (c : Category) (v : List Doc) :
    catMetadata (dictSet c "metadata" (CVal.docs v)) = v := by
  unfold catMetadata
  rw [catLookup_dictSet_same]

theorem aggregatePipeline_clean (key : String) (lim : Nat) (docs : List Doc) :
    AllClean (aggregatePipeline key lim unwantedKeys docs) := by
  intro d hd
  rcases List.mem_map.mp hd with ⟨x, _, rfl⟩
  intro p hp
  have h2 := (List.mem_filter.mp hp).2
  simpa using h2

theorem allClean_sortDescBy {k : String} {l : List Doc} (h : AllClean l) :
    AllClean (sortDescBy k l) :=
  fun d hd => h d (mem_sortDescBy.mp hd)

theorem allClean_flatten {L : List (List Doc)} (h : ∀ l ∈ L, AllClean l) :
    AllClean L.flatten := by
  intro d hd
  rcases List.mem_flatten.mp hd with ⟨l, hl, hdl⟩
  exact h l hl d hdl

theorem allClean_slices_flatten (cats : List Category) (store : String → List Doc)
    (key : String) (pred : Category → Bool) :
    AllClean (((cats.filter pred).map
      (fun c => aggregatePipeline key data_cap_limit unwantedKeys (store (catId c)))).flatten) := by
  refine allClean_flatten ?_
  intro l hl
  rcases List.mem_map.mp hl with ⟨c, _, rfl⟩
  exact aggregatePipeline_clean key data_cap_limit (store (catId c))

/-- C5: the identical exclusion list is applied to every ranking variant
(popularity, rating, recency) for every category, so no excluded field name
occurs in any document of any slice of the snapshot — carousel, most-popular,
top-rated, newly-added, or any category's attached metadata slice. -/
theorem no_excluded_field_in_output (cats : List Category) (store : String → List Doc) :
    AllClean (homePure cats store).carousel ∧
    AllClean (homePure cats store).most_popular_movies ∧
    AllClean (homePure cats store).most_popular_series ∧
    AllClean (homePure cats store).top_rated_movies ∧
    AllClean (homePure cats store).top_rated_series ∧
    AllClean (homePure cats store).newly_added_movies ∧
    AllClean (homePure cats store).newly_added_episodes ∧
    ∀ c ∈ (homePure cats store).categories, AllClean (catMetadata c) := by
  have hcar : AllClean (homePure cats store).carousel := by
    have : (homePure cats store).carousel
        = sortDescBy "popularity"
            ((cats.map (fun c => (popSlice (store (catId c))).take 3)).flatten) := by
      simp [homePure, finishSnapshot, homeLoopP_car]
    rw [this]
    refine allClean_sortDescBy (allClean_flatten ?_)
    intro l hl
    rcases List.mem_map.mp hl with ⟨c, _, rfl⟩
    intro d hd
    exact aggregatePipeline_clean "popularity" data_cap_limit (store (catId c)) d
      (List.mem_of_mem_take hd)
  have hmpm : AllClean (homePure cats store).most_popular_movies := by
    have : (homePure cats store).most_popular_movies
        = sortDescBy "popularity"
            (((cats.filter (fun c => catType c == "movies")).map
                (fun c => popSlice (store (catId c)))).flatten) := by
      simp [homePure, finishSnapshot, homeLoopP_mpm]
    rw [this]
    exact allClean_sortDescBy (allClean_slices_flatten cats store "popularity" _)
  have hmps : AllClean (homePure cats store).most_popular_series := by
    have : (homePure cats store).most_popular_series
        = sortDescBy "popularity"
            (((cats.filter (fun c => !(catType c == "movies"))).map
                (fun c => popSlice (store (catId c)))).flatten) := by
      simp [homePure, finishSnapshot, homeLoopP_mps]
    rw [this]
    exact allClean_sortDescBy (allClean_slices_flatten cats store "popularity" _)
  have htrm : AllClean (homePure cats store).top_rated_movies := by
    have : (homePure cats store).top_rated_movies
        = sortDescBy "rating"
            (((cats.filter (fun c => catType c == "movies")).map
                (fun c => ratingSlice (store (catId c)))).flatten) := by
      simp [homePure, finishSnapshot, homeLoopP_trm]
    rw [this]
    exact allClean_sortDescBy (allClean_slices_flatten cats store "rating" _)
  have htrs : AllClean (homePure cats store).top_rated_series := by
    have : (homePure cats store).top_rated_series
        = sortDescBy "rating"
            (((cats.filter (fun c => !(catType c == "movies"))).map
                (fun c => ratingSlice (store (catId c)))).flatten) := by
      simp [homePure, finishSnapshot, homeLoopP_trs]
    rw [this]
    exact allClean_sortDescBy (allClean_slices_flatten cats store "rating" _)
  have hnam : AllClean (homePure cats store).newly_added_movies := by
    have : (homePure cats store).newly_added_movies
        = sortDescBy "modified_time"
            (((cats.filter (fun c => catType c == "movies")).map
                (fun c => movieRecencySlice (store (catId c)))).flatten) := by
      simp [homePure, finishSnapshot, homeLoopP_nam]
    rw [this]
    exact allClean_sortDescBy (allClean_slices_flatten cats store "modified_time" _)
  have hnae : AllClean (homePure cats store).newly_added_episodes := by
    have : (homePure cats store).newly_added_episodes
        = ((cats.filter (fun c => !(catType c == "movies"))).map
            (fun c => episodeRecencySlice (store (catId c)))).flatten := by
      simp [homePure, finishSnapshot, homeLoopP_nae]
    rw [this]
    exact allClean_slices_flatten cats store "seasons.episodes.modified_time" _
  have hcats : ∀ c ∈ (homePure cats store).categories, AllClean (catMetadata c) := by
    intro c hc
    have : (homePure cats store).categories
        = cats.map (fun c => dictSet c "metadata" (CVal.docs (popSlice (store (catId c))))) := by
      simp [homePure, finishSnapshot, homeLoopP_cats]
    rw [this] at hc
    rcases List.mem_map.mp hc with ⟨c0, _, rfl⟩
    rw [catMetadata_dictSet]
    exact aggregatePipeline_clean "popularity" data_cap_limit (store (catId c0))
  exact ⟨hcar, hmpm, hmps, htrm, htrs, hnam, hnae, hcats⟩

/-- A concrete category record with no `"metadata"` field. -/
def plainCat : Category :=
  [("id", CVal.s "a"), ("type", CVal.s "movies"), ("name", CVal.s "Films")]

/-- C9 counterexample: a run over the single category `plainCat` (whose
collection is empty) does not leave the category record unchanged — the
record in the snapshot's categories section has gained a `"metadata"` field
that the input record did not have. -/
theorem category_record_changed :
    (homePure [plainCat] (fun _ => [])).categories ≠ [plainCat] ∧
    catLookup plainCat "metadata" = none ∧
    catLookup (((homePure [plainCat] (fun _ => [])).categories).headD [])
        "metadata" = some (CVal.docs []) := by
  refine ⟨by decide, by decide, by decide⟩

/-- C9 (amended): the generation changes each category record in exactly one
way — it sets the `"metadata"` field to the category's own popularity slice;
the lookup of every other key is unchanged. -/
theorem categories_gain_only_metadata (cats : List Category)
    (store : String → List Doc) (c : Category) (v : CVal) (k : String)
    (hk : k ≠ "metadata") :
    (homePure cats store).categories
      = cats.map (fun c => dictSet c "metadata" (CVal.docs (popSlice (store (catId c))))) ∧
    catLookup (dictSet c "metadata" v) k = catLookup c k :=
  ⟨by simp [homePure, finishSnapshot, homeLoopP_cats],
   catLookup_dictSet_other c "metadata" v k hk⟩

/-- Witness for the amended C9 at a concrete category and key. -/
theorem categories_gain_only_metadata_witness :
    "id" ≠ "metadata" ∧
    ((homePure [plainCat] (fun _ => [])).categories
        = [plainCat].map (fun c => dictSet c "metadata"
            (CVal.docs (popSlice ((fun _ => ([] : List Doc)) (catId c))))) ∧
     catLookup (dictSet plainCat "metadata" (CVal.docs [])) "id"
        = catLookup plainCat "id") :=
  ⟨by decide,
   categories_gain_only_metadata [plainCat] (fun _ => []) plainCat
     (CVal.docs []) "id" (by decide)⟩

/-- A store that always fails, as when the document store is unreachable. -/
def downStore : String → Except String (List Doc) :=
  fun _ => Except.error "StoreUnavailable"

/-- C7: whenever the fan-out run raises, the application boundary still
returns a response to the client — ok=false with the registered handler's
message and the raised error's text — instead of propagating the exception
(`appHome` is total: it yields a `Resp` on every input). -/
theorem failure_returns_ok_false (st : MongoState) (e : String)
    (h : home st = Except.error e) :
    appHome st = ⟨false, "Internal server error", none, some e⟩ := by
  unfold appHome
  rw [h]

/-- Witness for C7: a single-category state whose store is unreachable. -/
theorem failure_returns_ok_false_witness :
    home ⟨[exampleCatA], downStore⟩ = Except.error "StoreUnavailable" ∧
    appHome ⟨[exampleCatA], downStore⟩
      = ⟨false, "Internal server error", none, some "StoreUnavailable"⟩ :=
  ⟨rfl,
   failure_returns_ok_false ⟨[exampleCatA], downStore⟩ "StoreUnavailable" rfl⟩

/-- Modelled from the spec: the Homepage Cache (§4.4) is absent from src/
(only a commented-out cache call remains, home.py lines 18-33); its state is
one optional entry carrying the snapshot and its creation time, plus a
counter of the queries issued so far to the store client (the call-count
observable of §8). -/
structure CacheState where
  entry : Option (Snapshot × Nat)
  queryCount : Nat
deriving DecidableEq

/-- Modelled from the spec: `refresh()` (§4.4) runs the fan-out merge and
atomically replaces the entry on success, keeping the old entry otherwise;
every refresh issues one store query per category, added to the counter. -/
def cacheRefresh (st : MongoState) (now : Nat) (c : CacheState) : CacheState :=
  match home st with
  | Except.ok r =>
    match r.data with
    | some snap => ⟨some (snap, now), c.queryCount + st.categories.length⟩
    | none => ⟨c.entry, c.queryCount + st.categories.length⟩
  | Except.error _ => ⟨c.entry, c.queryCount + st.categories.length⟩

/-- Modelled from the spec: `get()` (§4.4) returns the entry when present and
not expired; it issues no store query, returning the cache state — and hence
`queryCount` — unchanged. -/
def cacheGet (ttl now : Nat) (c : CacheState) : Option Snapshot × CacheState :=
  match c.entry with
  | some (snap, created) =>
    if now - created < ttl then (some snap, c) else (none, c)
  | none => (none, c)

/-- C6: a `get()` served after a successful `refresh()`, any time before the
TTL elapses, returns exactly the refreshed snapshot and leaves the cache
state — in particular the store-query counter — unchanged: the store client
is not called again on a cache hit. -/
theorem cache_hit_no_requery (st : MongoState) (c : CacheState)
    (now later ttl : Nat) (r : Resp) (snap : Snapshot)
    (hok : home st = Except.ok r) (hdata : r.data = some snap)
    (hfresh : later - now < ttl) :
    cacheGet ttl later (cacheRefresh st now c)
      = (some snap, cacheRefresh st now c) ∧
    (cacheGet ttl later (cacheRefresh st now c)).2.queryCount
      = (cacheRefresh st now c).queryCount := by
  simp [cacheRefresh, cacheGet, hok, hdata, hfresh]

/-- Witness for C6: refresh at time 0 over one category with a healthy store,
get at time 5 with a 600-second TTL. -/
theorem cache_hit_no_requery_witness :
    home ⟨[exampleCatA], fun i => Except.ok (exampleStore i)⟩
        = Except.ok ⟨true, "success", some (homePure [exampleCatA] exampleStore), none⟩ ∧
    (Resp.mk true "success" (some (homePure [exampleCatA] exampleStore)) none).data
        = some (homePure [exampleCatA] exampleStore) ∧
    (5 : Nat) - 0 < 600 ∧
    (cacheGet 600 5 (cacheRefresh ⟨[exampleCatA], fun i => Except.ok (exampleStore i)⟩ 0 ⟨none, 0⟩)
        = (some (homePure [exampleCatA] exampleStore),
           cacheRefresh ⟨[exampleCatA], fun i => Except.ok (exampleStore i)⟩ 0 ⟨none, 0⟩) ∧
     (cacheGet 600 5 (cacheRefresh ⟨[exampleCatA], fun i => Except.ok (exampleStore i)⟩ 0 ⟨none, 0⟩)).2.queryCount
        = (cacheRefresh ⟨[exampleCatA], fun i => Except.ok (exampleStore i)⟩ 0 ⟨none, 0⟩).queryCount) :=
  ⟨home_total exampleStore [exampleCatA], rfl, by decide,
   cache_hit_no_requery ⟨[exampleCatA], fun i => Except.ok (exampleStore i)⟩
     ⟨none, 0⟩ 0 5 600 ⟨true, "success", some (homePure [exampleCatA] exampleStore), none⟩
     (homePure [exampleCatA] exampleStore)
     (home_total exampleStore [exampleCatA]) rfl (by decide)⟩
